import Mathlib

/-!
Verification of `split_data_by_month.py`.

The script reads two CSV tables (`public/box_plot_stats.csv`, Table A, and
`public/org_daily_executions.csv`, Table B), parses their `execution_date`
column, creates the directory `public/monthly`, computes the sorted list of
distinct year-month periods occurring in Table A, and for each period writes
the matching rows of each table to `box_plot_{YYYY-MM}.csv` and
`org_data_{YYYY-MM}.csv`.

The embedding below models the two in-memory tables as lists of rows, the
date parser as a total function returning `Option Date`, and the script's
externally visible behaviour as a list of filesystem effects (`mkdir` and
`write`) produced by `runScript`, or a `DateParseError` when a date cell
cannot be parsed.  Effects appear in the list in the order the script
performs them; an error result means no effect was performed at all.
-/

/-- A calendar date (year, month, day), the value type produced by
normalizing one `execution_date` cell. -/
structure Date where
  year : Nat
  month : Nat
  day : Nat
deriving DecidableEq

/-- A calendar year-month, the partition key (the script's
`dt.to_period('M')`). -/
structure Period where
  year : Nat
  month : Nat
deriving DecidableEq

/-- Truncate a date to its year-month period. -/
def Date.toPeriod (d : Date) : Period := ⟨d.year, d.month⟩

/-- Numeric value of a decimal digit character, `none` on a non-digit. -/
def digitVal (c : Char) : Option Nat :=
  if c.isDigit then some (c.toNat - 48) else none

/-- Value of a two-digit decimal field. -/
def twoDigits (a b : Char) : Option Nat := do
  let x ← digitVal a
  let y ← digitVal b
  pure (10 * x + y)

/-- Value of a four-digit decimal field. -/
def fourDigits (a b c d : Char) : Option Nat := do
  let x ← digitVal a
  let y ← digitVal b
  let z ← digitVal c
  let w ← digitVal d
  pure (1000 * x + 100 * y + 10 * z + w)

/-- Gregorian leap-year test. -/
def isLeap (y : Nat) : Bool :=
  (y % 4 == 0 && y % 100 != 0) || y % 400 == 0

/-- Number of days in a month of a given year. -/
def daysInMonth (y m : Nat) : Nat :=
  if m = 2 then (if isLeap y then 29 else 28)
  else if m = 4 ∨ m = 6 ∨ m = 9 ∨ m = 11 then 30
  else 31

/-- Build a date after validating the calendar bounds. -/
def mkValidDate (y m d : Nat) : Option Date :=
  if 1 ≤ m ∧ m ≤ 12 ∧ 1 ≤ d ∧ d ≤ daysInMonth y m then some ⟨y, m, d⟩ else none

/-- Modelled from the spec: the date normalizer applied to a single cell
(the source delegates this to the `pandas` library via `pd.to_datetime`,
whose code is not part of this repository).  Per the spec it accepts
standard ISO-like representations and produces a calendar date with no
time component: `YYYY-MM-DD`, optionally followed by a ` HH:MM:SS` or
`THH:MM:SS` time part that is validated and then discarded.  Any other
value is unparseable. -/
def parseDateChars : List Char → Option Date
  | [y1, y2, y3, y4, '-', m1, m2, '-', a1, a2] => do
    let y ← fourDigits y1 y2 y3 y4
    let m ← twoDigits m1 m2
    let d ← twoDigits a1 a2
    mkValidDate y m d
  | [y1, y2, y3, y4, '-', m1, m2, '-', a1, a2, sep, h1, h2, ':', n1, n2, ':', s1, s2] => do
    let y ← fourDigits y1 y2 y3 y4
    let m ← twoDigits m1 m2
    let d ← twoDigits a1 a2
    let hh ← twoDigits h1 h2
    let nn ← twoDigits n1 n2
    let ss ← twoDigits s1 s2
    if (sep = ' ' ∨ sep = 'T') ∧ hh < 24 ∧ nn < 60 ∧ ss < 60 then
      mkValidDate y m d
    else
      none
  | _ => none

/-- Modelled from the spec: parse one raw `execution_date` cell. -/
def parseDate (s : String) : Option Date := parseDateChars s.toList

/-- A raw table row: the textual `execution_date` cell plus all other
cells, in column order. -/
structure RawRow where
  date_text : String
  others : List String
deriving DecidableEq

/-- A row after date normalization: the parsed `execution_date` plus the
untouched other cells. -/
structure ParsedRow where
  execution_date : Date
  others : List String
deriving DecidableEq

/-- A loaded table: the non-date column names and the rows, in file order. -/
structure Table where
  header : List String
  rows : List RawRow
deriving DecidableEq

/-- A table whose `execution_date` column has been normalized. -/
structure ParsedTable where
  header : List String
  rows : List ParsedRow
deriving DecidableEq

/-- The error raised when a date cell cannot be parsed: it carries the
offending row index and the raw cell text. -/
structure DateParseError where
  index : Nat
  raw : String
deriving DecidableEq

/-- Parse the `execution_date` column of a row list, starting at row
index `i`; aborts at the first unparseable cell (the script's
`pd.to_datetime(df['execution_date'])`). -/
def parseRowsFrom : Nat → List RawRow → Except DateParseError (List ParsedRow)
  | _, [] => Except.ok []
  | i, r :: rs =>
    match parseDate r.date_text with
    | none => Except.error ⟨i, r.date_text⟩
    | some d =>
      match parseRowsFrom (i + 1) rs with
      | Except.error e => Except.error e
      | Except.ok ps => Except.ok (⟨d, r.others⟩ :: ps)

/-- Parse a whole `execution_date` column. -/
def parseDateColumn (rows : List RawRow) : Except DateParseError (List ParsedRow) :=
  parseRowsFrom 0 rows

/-- Normalize a table's date column, leaving header and other cells
untouched. -/
def normalizeTable (t : Table) : Except DateParseError ParsedTable :=
  (parseDateColumn t.rows).map (fun rs => ⟨t.header, rs⟩)

/-- First-occurrence deduplication with an accumulator of already seen
periods (the behaviour of pandas `.unique()` on the period column). -/
def uniqueAux (seen : List Period) : List Period → List Period
  | [] => []
  | p :: ps => if p ∈ seen then uniqueAux seen ps else p :: uniqueAux (p :: seen) ps

/-- Distinct periods in order of first occurrence (`.unique()`). -/
def uniquePeriods (l : List Period) : List Period := uniqueAux [] l

/-- Ascending order on periods: by year, then by month (the order used by
Python's `sorted` on `Period` values). -/
def Period.lexLe (p q : Period) : Prop :=
  p.year < q.year ∨ (p.year = q.year ∧ p.month ≤ q.month)

instance : DecidableRel Period.lexLe := fun p q =>
  inferInstanceAs (Decidable (p.year < q.year ∨ (p.year = q.year ∧ p.month ≤ q.month)))

instance : IsTotal Period Period.lexLe :=
  ⟨by
    intro a b
    simp only [Period.lexLe]
    omega⟩

instance : IsTrans Period Period.lexLe :=
  ⟨by
    intro a b c hab hbc
    simp only [Period.lexLe] at hab hbc ⊢
    omega⟩

/-- Sort a period list ascending (Python's `sorted(box_plot_months)`). -/
def sortPeriods (l : List Period) : List Period := List.insertionSort Period.lexLe l

/-- The sorted list of distinct periods present in a normalized row list:
`sorted(df['execution_date'].dt.to_period('M').unique())`. -/
def scriptMonths (rows : List ParsedRow) : List Period :=
  sortPeriods (uniquePeriods (rows.map (fun r => r.execution_date.toPeriod)))

/-- Keep the rows of one calendar month
(`df[df['execution_date'].dt.to_period('M') == period]`). -/
def monthlyFilter (rows : List ParsedRow) (p : Period) : List ParsedRow :=
  rows.filter (fun r => decide (r.execution_date.toPeriod = p))

/-- Zero-pad a number to two decimal digits. -/
def pad2 (n : Nat) : String := if n < 10 then "0" ++ toString n else toString n

/-- Zero-pad a number to four decimal digits. -/
def pad4 (n : Nat) : String :=
  if n < 10 then "000" ++ toString n
  else if n < 100 then "00" ++ toString n
  else if n < 1000 then "0" ++ toString n
  else toString n

/-- Format a period as `YYYY-MM` (the script's `period.strftime('%Y-%m')`). -/
def formatPeriod (p : Period) : String := pad4 p.year ++ "-" ++ pad2 p.month

/-- Serialize a normalized date as `YYYY-MM-DD`; a function of the parsed
date alone. -/
def serializeDate (d : Date) : String :=
  pad4 d.year ++ "-" ++ pad2 d.month ++ "-" ++ pad2 d.day

/-- One CSV line for a normalized row: the serialized date followed by the
other cells, comma separated. -/
def rowLine (r : ParsedRow) : String :=
  String.intercalate "," (serializeDate r.execution_date :: r.others)

/-- The CSV header line: `execution_date` followed by the other columns. -/
def headerLine (header : List String) : String :=
  String.intercalate "," ("execution_date" :: header)

/-- Serialize a table fragment as CSV text with a header row
(`to_csv(..., index=False)`). -/
def serializeTable (header : List String) (rows : List ParsedRow) : String :=
  String.join ((headerLine header ++ "\n") :: rows.map (fun r => rowLine r ++ "\n"))

/-- A filesystem effect the script performs, in program order. -/
inductive Effect where
  | mkdir : String → Effect
  | write : String → String → Effect
deriving DecidableEq

/-- The output directory (`public/monthly`). -/
def monthlyDir : String := "public/monthly"

/-- Output path for a month's Table A file. -/
def boxPath (p : Period) : String :=
  monthlyDir ++ "/box_plot_" ++ formatPeriod p ++ ".csv"

/-- Output path for a month's Table B file. -/
def orgPath (p : Period) : String :=
  monthlyDir ++ "/org_data_" ++ formatPeriod p ++ ".csv"

/-- The two writes the loop body performs for one period: the filtered
Table A rows, then the filtered Table B rows. -/
def periodEffects (A B : ParsedTable) (p : Period) : List Effect :=
  [Effect.write (boxPath p) (serializeTable A.header (monthlyFilter A.rows p)),
   Effect.write (orgPath p) (serializeTable B.header (monthlyFilter B.rows p))]

/-- The whole script: parse Table A's dates, parse Table B's dates, then
create the output directory and write both monthly files for each distinct
Table A period in ascending order.  The result is the effect trace, or the
first date-parse error; an error is raised before any effect happens. -/
def runScript (A B : Table) : Except DateParseError (List Effect) :=
  match normalizeTable A with
  | Except.error e => Except.error e
  | Except.ok Ap =>
    match normalizeTable B with
    | Except.error e => Except.error e
    | Except.ok Bp =>
      Except.ok (Effect.mkdir monthlyDir ::
        (scriptMonths Ap.rows).flatMap (periodEffects Ap Bp))

/-- The rows written to each `box_plot_{YYYY-MM}.csv` file, keyed by
period. -/
def boxOutputs (A : ParsedTable) : List (Period × List ParsedRow) :=
  (scriptMonths A.rows).map (fun p => (p, monthlyFilter A.rows p))

/-- The rows written to each `org_data_{YYYY-MM}.csv` file, keyed by
period (periods come from Table A, rows from Table B). -/
def orgOutputs (A B : ParsedTable) : List (Period × List ParsedRow) :=
  (scriptMonths A.rows).map (fun p => (p, monthlyFilter B.rows p))

/-- A filesystem state: which directories exist and what each file
contains. -/
structure FS where
  dirs : String → Bool
  files : String → Option String

/-- Apply one effect to a filesystem state.  `mkdir` is idempotent
(`exist_ok` semantics) and `write` overwrites. -/
def applyEffect (fs : FS) : Effect → FS
  | Effect.mkdir p => ⟨fun q => if q = p then true else fs.dirs q, fs.files⟩
  | Effect.write p c => ⟨fs.dirs, fun q => if q = p then some c else fs.files q⟩

/-- Apply a trace of effects in order. -/
def applyEffects (fs : FS) (l : List Effect) : FS := l.foldl applyEffect fs

/-- Run the script against a filesystem state: the resulting state, or the
date-parse error (in which case the state is untouched). -/
def runOnFS (A B : Table) (fs : FS) : Except DateParseError FS :=
  (runScript A B).map (applyEffects fs)

/-- Content of the last write to path `p` in a trace, if any. -/
def lastWrite : List Effect → String → Option String
  | [], _ => none
  | Effect.mkdir _ :: l, p => lastWrite l p
  | Effect.write q c :: l, p =>
    match lastWrite l p with
    | some c2 => some c2
    | none => if p = q then some c else none

/-- Whether a trace creates the directory `p`. -/
def anyMkdir : List Effect → String → Bool
  | [], _ => false
  | Effect.mkdir q :: l, p => anyMkdir l p || decide (p = q)
  | Effect.write _ _ :: l, p => anyMkdir l p

/-- The empty filesystem. -/
def emptyFS : FS := ⟨fun _ => false, fun _ => none⟩

/-- Concrete Table A of the spec's scenario: three rows dated 2024-01-05,
2024-01-20, 2024-02-10, one extra column `v`. -/
def sampleA : Table :=
  ⟨["v"], [⟨"2024-01-05", ["a1"]⟩, ⟨"2024-01-20", ["a2"]⟩, ⟨"2024-02-10", ["a3"]⟩]⟩

/-- Concrete Table B of the spec's scenario: rows dated 2024-01-05 and
2024-03-01, one extra column `w`. -/
def sampleB : Table :=
  ⟨["w"], [⟨"2024-01-05", ["b1"]⟩, ⟨"2024-03-01", ["b2"]⟩]⟩

/-- The normalized form of `sampleA`. -/
def sampleAp : ParsedTable :=
  ⟨["v"], [⟨⟨2024, 1, 5⟩, ["a1"]⟩, ⟨⟨2024, 1, 20⟩, ["a2"]⟩, ⟨⟨2024, 2, 10⟩, ["a3"]⟩]⟩

/-- The normalized form of `sampleB`. -/
def sampleBp : ParsedTable :=
  ⟨["w"], [⟨⟨2024, 1, 5⟩, ["b1"]⟩, ⟨⟨2024, 3, 1⟩, ["b2"]⟩]⟩

example : normalizeTable sampleA = Except.ok sampleAp := by rfl
example : normalizeTable sampleB = Except.ok sampleBp := by rfl

/-! ### Helper lemmas about the period pipeline -/

theorem mem_uniqueAux : ∀ (l seen : List Period) (a : Period),
    a ∈ uniqueAux seen l ↔ (a ∈ l ∧ a ∉ seen)
  | [], seen, a => by simp [uniqueAux]
  | p :: ps, seen, a => by
    by_cases hp : p ∈ seen
    · rw [show uniqueAux seen (p :: ps) = uniqueAux seen ps from by simp [uniqueAux, hp]]
      rw [mem_uniqueAux ps seen a]
      constructor
      · rintro ⟨h1, h2⟩
        exact ⟨List.mem_cons_of_mem p h1, h2⟩
      · rintro ⟨h1, h2⟩
        rcases List.mem_cons.mp h1 with h1 | h1
        · exact absurd (h1 ▸ hp) h2
        · exact ⟨h1, h2⟩
    · rw [show uniqueAux seen (p :: ps) = p :: uniqueAux (p :: seen) ps from by
        simp [uniqueAux, hp]]
      rw [List.mem_cons, mem_uniqueAux ps (p :: seen) a]
      constructor
      · rintro (h | ⟨h1, h2⟩)
        · subst h
          exact ⟨List.mem_cons_self a ps, hp⟩
        · exact ⟨List.mem_cons_of_mem p h1, fun hs => h2 (List.mem_cons_of_mem p hs)⟩
      · rintro ⟨h1, h2⟩
        rcases List.mem_cons.mp h1 with h1 | h1
        · exact Or.inl h1
        · by_cases hap : a = p
          · exact Or.inl hap
          · exact Or.inr ⟨h1, by simp [List.mem_cons, hap, h2]⟩

theorem nodup_uniqueAux : ∀ (l seen : List Period), (uniqueAux seen l).Nodup
  | [], _ => by simp [uniqueAux]
  | p :: ps, seen => by
    by_cases hp : p ∈ seen
    · rw [show uniqueAux seen (p :: ps) = uniqueAux seen ps from by simp [uniqueAux, hp]]
      exact nodup_uniqueAux ps seen
    · rw [show uniqueAux seen (p :: ps) = p :: uniqueAux (p :: seen) ps from by
        simp [uniqueAux, hp]]
      rw [List.nodup_cons]
      refine ⟨fun hmem => ?_, nodup_uniqueAux ps (p :: seen)⟩
      exact (mem_uniqueAux ps (p :: seen) p |>.mp hmem).2 (List.mem_cons_self p seen)

theorem mem_scriptMonths (rows : List ParsedRow) (p : Period) :
    p ∈ scriptMonths rows ↔ p ∈ rows.map (fun r => r.execution_date.toPeriod) := by
  unfold scriptMonths sortPeriods
  rw [(List.perm_insertionSort Period.lexLe _).mem_iff]
  unfold uniquePeriods
  rw [mem_uniqueAux]
  simp

theorem nodup_scriptMonths (rows : List ParsedRow) : (scriptMonths rows).Nodup := by
  unfold scriptMonths sortPeriods
  exact (List.perm_insertionSort Period.lexLe _).nodup_iff.mpr (nodup_uniqueAux _ [])

theorem sorted_scriptMonths (rows : List ParsedRow) :
    List.Sorted Period.lexLe (scriptMonths rows) :=
  List.sorted_insertionSort Period.lexLe _

theorem mem_monthlyFilter (r : ParsedRow) (rows : List ParsedRow) (p : Period) :
    r ∈ monthlyFilter rows p ↔ r ∈ rows ∧ r.execution_date.toPeriod = p := by
  simp [monthlyFilter]

theorem countP_congr_mem {α : Type} {l : List α} {p q : α → Bool}
    (h : ∀ a ∈ l, p a = q a) : l.countP p = l.countP q := by
  induction l with
  | nil => rfl
  | cons x xs ih =>
    rw [List.countP_cons, List.countP_cons, h x (List.mem_cons_self x xs),
      ih fun a ha => h a (List.mem_cons_of_mem x ha)]

theorem countP_eq_one_of_nodup {l : List Period} {c : Period}
    (hn : l.Nodup) (hm : c ∈ l) : l.countP (fun p => decide (p = c)) = 1 := by
  induction l with
  | nil => cases hm
  | cons x xs ih =>
    rw [List.nodup_cons] at hn
    rcases List.mem_cons.mp hm with h | h
    · have hzero : xs.countP (fun p => decide (p = c)) = 0 := by
        rw [List.countP_eq_zero]
        intro a ha
        simp only [decide_eq_true_eq]
        intro hac
        exact hn.1 (h ▸ hac ▸ ha)
      rw [List.countP_cons, hzero]
      simp [h]
    · have hx : ¬ (x = c) := fun hxc => hn.1 (hxc ▸ h)
      rw [List.countP_cons, ih hn.2 h]
      simp [hx]

theorem runScript_ok (A B : Table) (Ap Bp : ParsedTable)
    (hA : normalizeTable A = Except.ok Ap) (hB : normalizeTable B = Except.ok Bp) :
    runScript A B = Except.ok (Effect.mkdir monthlyDir ::
      (scriptMonths Ap.rows).flatMap (periodEffects Ap Bp)) := by
  unfold runScript
  rw [hA, hB]

/-! ### Parse-column lemmas -/

theorem parseRowsFrom_error : ∀ (rows : List RawRow) (i : Nat) (e : DateParseError),
    parseRowsFrom i rows = Except.error e →
    i ≤ e.index ∧ ∃ r, rows.get? (e.index - i) = some r ∧
      r.date_text = e.raw ∧ parseDate r.date_text = none
  | [], i, e => by intro h; simp [parseRowsFrom] at h
  | r :: rs, i, e => by
    intro h
    unfold parseRowsFrom at h
    cases hpd : parseDate r.date_text with
    | none =>
      rw [hpd] at h
      cases h
      exact ⟨Nat.le_refl i, r, by simp, rfl, hpd⟩
    | some d =>
      rw [hpd] at h
      cases htl : parseRowsFrom (i + 1) rs with
      | error e2 =>
        rw [htl] at h
        cases h
        obtain ⟨hle, r2, hget, hraw, hparse⟩ := parseRowsFrom_error rs (i + 1) e htl
        refine ⟨Nat.le_of_succ_le hle, r2, ?_, hraw, hparse⟩
        have hidx : e.index - i = (e.index - (i + 1)) + 1 := by omega
        rw [hidx]
        simpa using hget
      | ok ps => rw [htl] at h; cases h

theorem parseRowsFrom_ok : ∀ (rows : List RawRow) (i : Nat) (ps : List ParsedRow),
    parseRowsFrom i rows = Except.ok ps →
    ps.length = rows.length ∧
    ∀ j r q, rows.get? j = some r → ps.get? j = some q →
      q.others = r.others ∧ parseDate r.date_text = some q.execution_date
  | [], i, ps => by
    intro h
    simp [parseRowsFrom] at h
    subst h
    exact ⟨rfl, by intro j r q hr; simp at hr⟩
  | r :: rs, i, ps => by
    intro h
    unfold parseRowsFrom at h
    cases hpd : parseDate r.date_text with
    | none => rw [hpd] at h; cases h
    | some d =>
      rw [hpd] at h
      cases htl : parseRowsFrom (i + 1) rs with
      | error e2 => rw [htl] at h; cases h
      | ok ps2 =>
        rw [htl] at h
        cases h
        obtain ⟨hlen, htail⟩ := parseRowsFrom_ok rs (i + 1) ps2 htl
        refine ⟨by simp [hlen], ?_⟩
        intro j r2 q2 hr hq
        cases j with
        | zero =>
          simp at hr hq
          subst hr
          subst hq
          exact ⟨rfl, hpd⟩
        | succ k =>
          simp at hr hq
          exact htail k r2 q2 (by simpa using hr) (by simpa using hq)

theorem normalizeTable_error (t : Table) (e : DateParseError)
    (h : parseDateColumn t.rows = Except.error e) :
    normalizeTable t = Except.error e := by
  unfold normalizeTable
  rw [h]
  rfl

theorem normalizeTable_ok_rows (t : Table) (tp : ParsedTable)
    (h : normalizeTable t = Except.ok tp) :
    tp.header = t.header ∧ parseDateColumn t.rows = Except.ok tp.rows := by
  unfold normalizeTable at h
  cases hpc : parseDateColumn t.rows with
  | error e => rw [hpc] at h; cases h
  | ok rs =>
    rw [hpc] at h
    cases h
    exact ⟨rfl, rfl⟩

/-! ### Filesystem lemmas -/

theorem FS.ext_of (a b : FS) (h1 : a.dirs = b.dirs) (h2 : a.files = b.files) : a = b := by
  cases a
  cases b
  simp only at h1 h2
  rw [h1, h2]

theorem applyEffects_cons (fs : FS) (e : Effect) (l : List Effect) :
    applyEffects fs (e :: l) = applyEffects (applyEffect fs e) l := rfl

theorem applyEffects_files : ∀ (l : List Effect) (fs : FS) (p : String),
    (applyEffects fs l).files p =
      (match lastWrite l p with
       | some c => some c
       | none => fs.files p)
  | [], fs, p => rfl
  | Effect.mkdir q :: l, fs, p => by
    rw [applyEffects_cons, applyEffects_files l]
    rfl
  | Effect.write q c :: l, fs, p => by
    rw [applyEffects_cons, applyEffects_files l]
    show (match lastWrite l p with
          | some c2 => some c2
          | none => if p = q then some c else fs.files p) = _
    simp only [lastWrite]
    cases hlw : lastWrite l p with
    | some c2 => rfl
    | none =>
      by_cases h : p = q
      · simp [h]
      · simp [h]

theorem applyEffects_dirs : ∀ (l : List Effect) (fs : FS) (p : String),
    (applyEffects fs l).dirs p = (anyMkdir l p || fs.dirs p)
  | [], fs, p => rfl
  | Effect.mkdir q :: l, fs, p => by
    rw [applyEffects_cons, applyEffects_dirs l]
    show (anyMkdir l p || (if p = q then true else fs.dirs p)) = _
    simp only [anyMkdir]
    by_cases h : p = q
    · simp [h]
    · simp [h]
  | Effect.write q c :: l, fs, p => by
    rw [applyEffects_cons, applyEffects_dirs l]
    rfl

theorem applyEffects_idem (l : List Effect) (fs : FS) :
    applyEffects (applyEffects fs l) l = applyEffects fs l := by
  refine FS.ext_of _ _ (funext fun p => ?_) (funext fun p => ?_)
  · rw [applyEffects_dirs, applyEffects_dirs]
    cases anyMkdir l p <;> simp
  · rw [applyEffects_files l (applyEffects fs l) p, applyEffects_files l fs p]
    cases hlw : lastWrite l p with
    | some c => rfl
    | none => rfl

/-! ### Concrete data shared by the witnesses -/

/-- The effect trace of the script on the scenario tables. -/
def sampleEffects : List Effect :=
  [Effect.mkdir "public/monthly",
   Effect.write "public/monthly/box_plot_2024-01.csv"
     "execution_date,v\n2024-01-05,a1\n2024-01-20,a2\n",
   Effect.write "public/monthly/org_data_2024-01.csv"
     "execution_date,w\n2024-01-05,b1\n",
   Effect.write "public/monthly/box_plot_2024-02.csv"
     "execution_date,v\n2024-02-10,a3\n",
   Effect.write "public/monthly/org_data_2024-02.csv"
     "execution_date,w\n"]

/-- A Table B variant whose second date cell is unparseable. -/
def badB : Table :=
  ⟨["w"], [⟨"2024-01-05", ["b1"]⟩, ⟨"nonsense", ["b2"]⟩]⟩

/-- A Table A with a header but no rows. -/
def emptyA : Table := ⟨["v"], []⟩

/-! ### Claims -/

/-- Claim C1: every row of Table A appears, unmodified, in exactly one
`box_plot_{YYYY-MM}.csv` output, namely the one whose period equals the
row's date truncated to (year, month); that file's write effect is part of
the run's trace. -/
theorem tableA_row_in_exactly_one_box_file
    (A B : Table) (Ap Bp : ParsedTable) (effs : List Effect)
    (hA : normalizeTable A = Except.ok Ap) (hB : normalizeTable B = Except.ok Bp)
    (hrun : runScript A B = Except.ok effs)
    (r : ParsedRow) (hr : r ∈ Ap.rows) :
    (boxOutputs Ap).countP (fun f => decide (r ∈ f.2)) = 1 ∧
    (∀ f ∈ boxOutputs Ap, (r ∈ f.2 ↔ f.1 = r.execution_date.toPeriod)) ∧
    r ∈ monthlyFilter Ap.rows r.execution_date.toPeriod ∧
    Effect.write (boxPath r.execution_date.toPeriod)
      (serializeTable Ap.header (monthlyFilter Ap.rows r.execution_date.toPeriod)) ∈ effs := by
  have hmem : r.execution_date.toPeriod ∈ scriptMonths Ap.rows :=
    (mem_scriptMonths Ap.rows _).mpr (List.mem_map.mpr ⟨r, hr, rfl⟩)
  obtain rfl : effs = Effect.mkdir monthlyDir ::
      (scriptMonths Ap.rows).flatMap (periodEffects Ap Bp) := by
    rw [runScript_ok A B Ap Bp hA hB] at hrun
    exact (Except.ok.inj hrun).symm
  refine ⟨?_, ?_, ?_, ?_⟩
  · unfold boxOutputs
    rw [List.countP_map]
    have hcongr : ∀ p ∈ scriptMonths Ap.rows,
        ((fun f : Period × List ParsedRow => decide (r ∈ f.2)) ∘
          (fun p => (p, monthlyFilter Ap.rows p))) p =
        (fun p => decide (p = r.execution_date.toPeriod)) p := by
      intro p hp
      simp only [Function.comp_apply]
      rw [decide_eq_decide, mem_monthlyFilter]
      constructor
      · rintro ⟨h1, h2⟩
        exact h2.symm
      · intro h2
        exact ⟨hr, h2.symm⟩
    rw [countP_congr_mem hcongr]
    exact countP_eq_one_of_nodup (nodup_scriptMonths Ap.rows) hmem
  · intro f hf
    obtain ⟨p, hp, rfl⟩ := List.mem_map.mp hf
    simp only
    rw [mem_monthlyFilter]
    constructor
    · rintro ⟨h1, h2⟩
      exact h2.symm
    · intro h2
      exact ⟨hr, h2.symm⟩
  · exact (mem_monthlyFilter r Ap.rows _).mpr ⟨hr, rfl⟩
  · refine List.mem_cons_of_mem _ (List.mem_flatMap.mpr ⟨r.execution_date.toPeriod, hmem, ?_⟩)
    simp [periodEffects]

/-- Witness for C1 on the scenario tables and the row dated 2024-01-05. -/
theorem tableA_row_in_exactly_one_box_file_witness :
    normalizeTable sampleA = Except.ok sampleAp ∧
    normalizeTable sampleB = Except.ok sampleBp ∧
    runScript sampleA sampleB = Except.ok sampleEffects ∧
    (⟨⟨2024, 1, 5⟩, ["a1"]⟩ : ParsedRow) ∈ sampleAp.rows ∧
    (boxOutputs sampleAp).countP
      (fun f => decide ((⟨⟨2024, 1, 5⟩, ["a1"]⟩ : ParsedRow) ∈ f.2)) = 1 :=
  ⟨rfl, rfl, rfl, by decide,
    (tableA_row_in_exactly_one_box_file sampleA sampleB sampleAp sampleBp sampleEffects
      rfl rfl rfl ⟨⟨2024, 1, 5⟩, ["a1"]⟩ (by decide)).1⟩

/-- Claim C2: output files are produced exactly for the distinct
(year, month) periods of Table A's `execution_date` column, the period
list is duplicate-free and sorted ascending, and each file name embeds the
period formatted `YYYY-MM` with zero-padded month. -/
theorem months_partition_correct
    (A B : Table) (Ap Bp : ParsedTable) (effs : List Effect)
    (hA : normalizeTable A = Except.ok Ap) (hB : normalizeTable B = Except.ok Bp)
    (hrun : runScript A B = Except.ok effs) :
    (∀ p, p ∈ scriptMonths Ap.rows ↔
      p ∈ Ap.rows.map (fun r => r.execution_date.toPeriod)) ∧
    (scriptMonths Ap.rows).Nodup ∧
    List.Sorted Period.lexLe (scriptMonths Ap.rows) ∧
    effs = Effect.mkdir monthlyDir ::
      (scriptMonths Ap.rows).flatMap (periodEffects Ap Bp) ∧
    (∀ p, boxPath p =
      monthlyDir ++ "/box_plot_" ++ (pad4 p.year ++ "-" ++ pad2 p.month) ++ ".csv") ∧
    (∀ p, orgPath p =
      monthlyDir ++ "/org_data_" ++ (pad4 p.year ++ "-" ++ pad2 p.month) ++ ".csv") ∧
    (∀ m, m < 10 → pad2 m = "0" ++ toString m) := by
  refine ⟨fun p => mem_scriptMonths Ap.rows p, nodup_scriptMonths Ap.rows,
    sorted_scriptMonths Ap.rows, ?_, fun p => rfl, fun p => rfl, ?_⟩
  · rw [runScript_ok A B Ap Bp hA hB] at hrun
    exact (Except.ok.inj hrun).symm
  · intro m hm
    simp [pad2, hm]

/-- Witness for C2 on the scenario tables. -/
theorem months_partition_correct_witness :
    normalizeTable sampleA = Except.ok sampleAp ∧
    normalizeTable sampleB = Except.ok sampleBp ∧
    runScript sampleA sampleB = Except.ok sampleEffects ∧
    (scriptMonths sampleAp.rows).Nodup :=
  ⟨rfl, rfl, rfl,
    (months_partition_correct sampleA sampleB sampleAp sampleBp sampleEffects
      rfl rfl rfl).2.1⟩

/-- Claim C3: a Table B row whose period is absent from Table A's period
set is in no `org_data` output, `box_plot` outputs only ever hold Table A
rows, and the run still succeeds (the row is dropped, not erred). -/
theorem tableB_uncovered_rows_dropped
    (A B : Table) (Ap Bp : ParsedTable)
    (hA : normalizeTable A = Except.ok Ap) (hB : normalizeTable B = Except.ok Bp)
    (r : ParsedRow) (hr : r ∈ Bp.rows)
    (hp : r.execution_date.toPeriod ∉ Ap.rows.map (fun x => x.execution_date.toPeriod)) :
    (∀ f ∈ orgOutputs Ap Bp, r ∉ f.2) ∧
    (∀ f ∈ boxOutputs Ap, ∀ q ∈ f.2, q ∈ Ap.rows) ∧
    (∃ effs, runScript A B = Except.ok effs) := by
  refine ⟨?_, ?_, ⟨_, runScript_ok A B Ap Bp hA hB⟩⟩
  · intro f hf hmem
    obtain ⟨p, hpm, rfl⟩ := List.mem_map.mp hf
    obtain ⟨h1, h2⟩ := (mem_monthlyFilter r Bp.rows p).mp hmem
    exact hp ((mem_scriptMonths Ap.rows _).mp (h2 ▸ hpm))
  · intro f hf q hq
    obtain ⟨p, hpm, rfl⟩ := List.mem_map.mp hf
    exact ((mem_monthlyFilter q Ap.rows p).mp hq).1

/-- Witness for C3 on the scenario tables and the row dated 2024-03-01. -/
theorem tableB_uncovered_rows_dropped_witness :
    normalizeTable sampleA = Except.ok sampleAp ∧
    normalizeTable sampleB = Except.ok sampleBp ∧
    (⟨⟨2024, 3, 1⟩, ["b2"]⟩ : ParsedRow) ∈ sampleBp.rows ∧
    (⟨⟨2024, 3, 1⟩, ["b2"]⟩ : ParsedRow).execution_date.toPeriod ∉
      sampleAp.rows.map (fun x => x.execution_date.toPeriod) ∧
    (∀ f ∈ orgOutputs sampleAp sampleBp, (⟨⟨2024, 3, 1⟩, ["b2"]⟩ : ParsedRow) ∉ f.2) :=
  ⟨rfl, rfl, by decide, by decide,
    (tableB_uncovered_rows_dropped sampleA sampleB sampleAp sampleBp rfl rfl
      ⟨⟨2024, 3, 1⟩, ["b2"]⟩ (by decide) (by decide)).1⟩

/-- Claim C4: an unparseable `execution_date` cell in either table makes
the whole run return the `DateParseError` that names the offending row
index and raw value; the result carries no effect trace, so no directory
is created and no file is written. -/
theorem parse_error_aborts_run
    (A B : Table) (e : DateParseError)
    (h : parseDateColumn A.rows = Except.error e ∨
         ((∃ Ap, normalizeTable A = Except.ok Ap) ∧
           parseDateColumn B.rows = Except.error e)) :
    runScript A B = Except.error e ∧
    (∀ effs, runScript A B ≠ Except.ok effs) ∧
    (∃ rows, (rows = A.rows ∨ rows = B.rows) ∧
      ∃ r, rows.get? e.index = some r ∧ r.date_text = e.raw ∧ parseDate e.raw = none) := by
  have hmain : runScript A B = Except.error e ∧
      (∃ rows, (rows = A.rows ∨ rows = B.rows) ∧
        ∃ r, rows.get? e.index = some r ∧ r.date_text = e.raw ∧
          parseDate e.raw = none) := by
    rcases h with hA | ⟨⟨Ap, hAp⟩, hB⟩
    · have hnA := normalizeTable_error A e hA
      obtain ⟨hle, r, hget, hraw, hparse⟩ := parseRowsFrom_error A.rows 0 e hA
      refine ⟨by unfold runScript; rw [hnA], A.rows, Or.inl rfl, r, ?_, hraw, hraw ▸ hparse⟩
      simpa using hget
    · have hnB := normalizeTable_error B e hB
      obtain ⟨hle, r, hget, hraw, hparse⟩ := parseRowsFrom_error B.rows 0 e hB
      refine ⟨by unfold runScript; rw [hAp, hnB], B.rows, Or.inr rfl, r, ?_, hraw, hraw ▸ hparse⟩
      simpa using hget
  refine ⟨hmain.1, ?_, hmain.2⟩
  intro effs hcontra
  rw [hmain.1] at hcontra
  cases hcontra

/-- Witness for C4: Table B's second cell `nonsense` aborts the run. -/
theorem parse_error_aborts_run_witness :
    (parseDateColumn sampleA.rows = Except.error ⟨1, "nonsense"⟩ ∨
      ((∃ Ap, normalizeTable sampleA = Except.ok Ap) ∧
        parseDateColumn badB.rows = Except.error ⟨1, "nonsense"⟩)) ∧
    runScript sampleA badB = Except.error ⟨1, "nonsense"⟩ :=
  ⟨Or.inr ⟨⟨sampleAp, rfl⟩, rfl⟩,
    (parse_error_aborts_run sampleA badB ⟨1, "nonsense"⟩
      (Or.inr ⟨⟨sampleAp, rfl⟩, rfl⟩)).1⟩

/-- Claim C5: a second run on unchanged inputs reproduces the first run's
filesystem exactly (deterministic traces plus overwrite semantics), so
every output file is byte-identical. -/
theorem second_run_byte_identical (A B : Table) (fs fs2 : FS)
    (h : runOnFS A B fs = Except.ok fs2) :
    runOnFS A B fs2 = Except.ok fs2 := by
  cases hrs : runScript A B with
  | error e =>
    unfold runOnFS at h
    rw [hrs] at h
    simp only [Except.map] at h
    cases h
  | ok effs =>
    unfold runOnFS at h ⊢
    rw [hrs] at h ⊢
    simp only [Except.map] at h ⊢
    cases h
    rw [applyEffects_idem]

/-- Witness for C5: a second scenario run reproduces the first run's
filesystem. -/
theorem second_run_byte_identical_witness :
    runOnFS sampleA sampleB emptyFS = Except.ok (applyEffects emptyFS sampleEffects) ∧
    runOnFS sampleA sampleB (applyEffects emptyFS sampleEffects) =
      Except.ok (applyEffects emptyFS sampleEffects) :=
  ⟨rfl, second_run_byte_identical sampleA sampleB emptyFS
    (applyEffects emptyFS sampleEffects) rfl⟩

/-- Claim C6: each monthly output is a stable filter of its source table:
the rows written for any period form an order-preserving subsequence of
the source rows, for both tables. -/
theorem rows_keep_source_order
    (A B : Table) (Ap Bp : ParsedTable)
    (hA : normalizeTable A = Except.ok Ap) (hB : normalizeTable B = Except.ok Bp) :
    (∀ f ∈ boxOutputs Ap, List.Sublist f.2 Ap.rows) ∧
    (∀ f ∈ orgOutputs Ap Bp, List.Sublist f.2 Bp.rows) := by
  constructor
  · intro f hf
    obtain ⟨p, hp, rfl⟩ := List.mem_map.mp hf
    exact List.filter_sublist Ap.rows
  · intro f hf
    obtain ⟨p, hp, rfl⟩ := List.mem_map.mp hf
    exact List.filter_sublist Bp.rows

/-- Witness for C6 on the scenario tables. -/
theorem rows_keep_source_order_witness :
    normalizeTable sampleA = Except.ok sampleAp ∧
    normalizeTable sampleB = Except.ok sampleBp ∧
    (∀ f ∈ boxOutputs sampleAp, List.Sublist f.2 sampleAp.rows) :=
  ⟨rfl, rfl,
    (rows_keep_source_order sampleA sampleB sampleAp sampleBp rfl rfl).1⟩

/-- Claim C7: an empty Table A yields an empty period sequence and a run
that succeeds performing only the directory creation, writing no file,
whatever rows Table B has (provided its dates parse, otherwise the run
aborts per the parse-error rule). -/
theorem empty_tableA_no_output
    (A B : Table) (Bp : ParsedTable)
    (hA : A.rows = []) (hB : normalizeTable B = Except.ok Bp) :
    runScript A B = Except.ok [Effect.mkdir monthlyDir] ∧
    (∀ Ap, normalizeTable A = Except.ok Ap → scriptMonths Ap.rows = []) ∧
    (∀ effs p c, runScript A B = Except.ok effs → Effect.write p c ∉ effs) := by
  have hnA : normalizeTable A = Except.ok ⟨A.header, []⟩ := by
    unfold normalizeTable parseDateColumn
    rw [hA]
    rfl
  have hrun : runScript A B = Except.ok [Effect.mkdir monthlyDir] := by
    rw [runScript_ok A B ⟨A.header, []⟩ Bp hnA hB]
    rfl
  refine ⟨hrun, ?_, ?_⟩
  · intro Ap hAp
    rw [hnA] at hAp
    cases Except.ok.inj hAp
    rfl
  · intro effs p c hr2 hmem
    rw [hrun] at hr2
    cases Except.ok.inj hr2
    simp at hmem

/-- Witness for C7: header-only Table A with the scenario Table B. -/
theorem empty_tableA_no_output_witness :
    emptyA.rows = ([] : List RawRow) ∧
    normalizeTable sampleB = Except.ok sampleBp ∧
    runScript emptyA sampleB = Except.ok [Effect.mkdir monthlyDir] :=
  ⟨rfl, rfl, (empty_tableA_no_output emptyA sampleB sampleBp rfl rfl).1⟩

/-- Claim C8: on the spec's scenario tables the run performs exactly the
directory creation and four writes: `box_plot_2024-01.csv` with 2 rows,
`org_data_2024-01.csv` with 1 row, `box_plot_2024-02.csv` with 1 row, and
`org_data_2024-02.csv` header-only; no `2024-03` file exists. -/
theorem scenario_output_exact :
    runScript sampleA sampleB = Except.ok
      [Effect.mkdir "public/monthly",
       Effect.write "public/monthly/box_plot_2024-01.csv"
         "execution_date,v\n2024-01-05,a1\n2024-01-20,a2\n",
       Effect.write "public/monthly/org_data_2024-01.csv"
         "execution_date,w\n2024-01-05,b1\n",
       Effect.write "public/monthly/box_plot_2024-02.csv"
         "execution_date,v\n2024-02-10,a3\n",
       Effect.write "public/monthly/org_data_2024-02.csv"
         "execution_date,w\n"] ∧
    (monthlyFilter sampleAp.rows ⟨2024, 1⟩).length = 2 ∧
    (monthlyFilter sampleAp.rows ⟨2024, 2⟩).length = 1 ∧
    (monthlyFilter sampleBp.rows ⟨2024, 1⟩).length = 1 ∧
    (monthlyFilter sampleBp.rows ⟨2024, 2⟩).length = 0 ∧
    scriptMonths sampleAp.rows = [⟨2024, 1⟩, ⟨2024, 2⟩] :=
  ⟨rfl, rfl, rfl, rfl, rfl, rfl⟩

/-- Claim C9: every Table B row whose period is in Table A's period set
appears in exactly one `org_data_{YYYY-MM}.csv` output, the one of its
own period; its write effect is part of the run's trace. -/
theorem tableB_covered_row_in_exactly_one_org_file
    (A B : Table) (Ap Bp : ParsedTable) (effs : List Effect)
    (hA : normalizeTable A = Except.ok Ap) (hB : normalizeTable B = Except.ok Bp)
    (hrun : runScript A B = Except.ok effs)
    (r : ParsedRow) (hr : r ∈ Bp.rows)
    (hp : r.execution_date.toPeriod ∈ Ap.rows.map (fun x => x.execution_date.toPeriod)) :
    (orgOutputs Ap Bp).countP (fun f => decide (r ∈ f.2)) = 1 ∧
    (∀ f ∈ orgOutputs Ap Bp, (r ∈ f.2 ↔ f.1 = r.execution_date.toPeriod)) ∧
    Effect.write (orgPath r.execution_date.toPeriod)
      (serializeTable Bp.header (monthlyFilter Bp.rows r.execution_date.toPeriod)) ∈ effs := by
  have hmem : r.execution_date.toPeriod ∈ scriptMonths Ap.rows :=
    (mem_scriptMonths Ap.rows _).mpr hp
  obtain rfl : effs = Effect.mkdir monthlyDir ::
      (scriptMonths Ap.rows).flatMap (periodEffects Ap Bp) := by
    rw [runScript_ok A B Ap Bp hA hB] at hrun
    exact (Except.ok.inj hrun).symm
  refine ⟨?_, ?_, ?_⟩
  · unfold orgOutputs
    rw [List.countP_map]
    have hcongr : ∀ p ∈ scriptMonths Ap.rows,
        ((fun f : Period × List ParsedRow => decide (r ∈ f.2)) ∘
          (fun p => (p, monthlyFilter Bp.rows p))) p =
        (fun p => decide (p = r.execution_date.toPeriod)) p := by
      intro p hpm
      simp only [Function.comp_apply]
      rw [decide_eq_decide, mem_monthlyFilter]
      constructor
      · rintro ⟨h1, h2⟩
        exact h2.symm
      · intro h2
        exact ⟨hr, h2.symm⟩
    rw [countP_congr_mem hcongr]
    exact countP_eq_one_of_nodup (nodup_scriptMonths Ap.rows) hmem
  · intro f hf
    obtain ⟨p, hpm, rfl⟩ := List.mem_map.mp hf
    simp only
    rw [mem_monthlyFilter]
    constructor
    · rintro ⟨h1, h2⟩
      exact h2.symm
    · intro h2
      exact ⟨hr, h2.symm⟩
  · refine List.mem_cons_of_mem _ (List.mem_flatMap.mpr ⟨r.execution_date.toPeriod, hmem, ?_⟩)
    simp [periodEffects]

/-- Witness for C9 on the scenario tables and the row dated 2024-01-05. -/
theorem tableB_covered_row_in_exactly_one_org_file_witness :
    normalizeTable sampleA = Except.ok sampleAp ∧
    normalizeTable sampleB = Except.ok sampleBp ∧
    runScript sampleA sampleB = Except.ok sampleEffects ∧
    (⟨⟨2024, 1, 5⟩, ["b1"]⟩ : ParsedRow) ∈ sampleBp.rows ∧
    (⟨⟨2024, 1, 5⟩, ["b1"]⟩ : ParsedRow).execution_date.toPeriod ∈
      sampleAp.rows.map (fun x => x.execution_date.toPeriod) ∧
    (orgOutputs sampleAp sampleBp).countP
      (fun f => decide ((⟨⟨2024, 1, 5⟩, ["b1"]⟩ : ParsedRow) ∈ f.2)) = 1 :=
  ⟨rfl, rfl, rfl, by decide, by decide,
    (tableB_covered_row_in_exactly_one_org_file sampleA sampleB sampleAp sampleBp
      sampleEffects rfl rfl rfl ⟨⟨2024, 1, 5⟩, ["b1"]⟩ (by decide) (by decide)).1⟩

/-- Claim C10: every written `execution_date` cell is `serializeDate`
applied to the parsed date — a function of the parsed date alone — so the
written text can differ from the source text (a time component is
normalized away), while every other cell of the row is written
unchanged. -/
theorem date_cells_reserialized_others_unchanged
    (A : Table) (Ap : ParsedTable) (hA : normalizeTable A = Except.ok Ap)
    (j : Nat) (r : RawRow) (q : ParsedRow)
    (hr : A.rows.get? j = some r) (hq : Ap.rows.get? j = some q) :
    q.others = r.others ∧
    parseDate r.date_text = some q.execution_date ∧
    rowLine q = String.intercalate ","
      (serializeDate q.execution_date :: r.others) ∧
    parseDate "2024-01-05" = some ⟨2024, 1, 5⟩ ∧
    parseDate "2024-01-05 00:00:00" = some ⟨2024, 1, 5⟩ ∧
    serializeDate ⟨2024, 1, 5⟩ = "2024-01-05" := by
  obtain ⟨hh, hpc⟩ := normalizeTable_ok_rows A Ap hA
  obtain ⟨hlen, hpair⟩ := parseRowsFrom_ok A.rows 0 Ap.rows hpc
  obtain ⟨hothers, hdate⟩ := hpair j r q hr hq
  refine ⟨hothers, hdate, ?_, rfl, rfl, rfl⟩
  unfold rowLine
  rw [hothers]

/-- Witness for C10 at row 0 of the scenario Table A. -/
theorem date_cells_reserialized_others_unchanged_witness :
    normalizeTable sampleA = Except.ok sampleAp ∧
    sampleA.rows.get? 0 = some ⟨"2024-01-05", ["a1"]⟩ ∧
    sampleAp.rows.get? 0 = some ⟨⟨2024, 1, 5⟩, ["a1"]⟩ ∧
    (⟨⟨2024, 1, 5⟩, ["a1"]⟩ : ParsedRow).others = (⟨"2024-01-05", ["a1"]⟩ : RawRow).others :=
  ⟨rfl, rfl, rfl,
    (date_cells_reserialized_others_unchanged sampleA sampleAp rfl 0
      ⟨"2024-01-05", ["a1"]⟩ ⟨⟨2024, 1, 5⟩, ["a1"]⟩ rfl rfl).1⟩
